import Mathlib

/-!
Verification of the EduMind AI tutoring client (pedagogical dialogue controller,
instruction builder, inference gateway and response-contract validator) against
its natural-language specification.

The TypeScript sources are shallowly embedded as Lean definitions:
enums become inductives carrying their string values via explicit `...Str`
functions, template-literal interpolation becomes `String.append`, the
JavaScript number-to-string conversion of the (integer) student age becomes a
decimal rendering function, and the platform functions `JSON.parse` /
`JSON.stringify` / `String.prototype.trim` / the specific
`replace(/```json\n?|\n?```/g, '')` regex call are modelled by executable Lean
functions over `List Char` (whitespace is modelled as the JSON whitespace set).
-/

set_option maxRecDepth 20000

namespace EduMind

/-! ## Data model (src/types.ts) -/

/-- `Subject` enum from types.ts. -/
inductive Subject where
  | MATH
  | CHINESE
  | ENGLISH
  | SCIENCE
deriving DecidableEq

/-- The string value each `Subject` enum member carries in types.ts. -/
def subjectStr : Subject → String
  | .MATH => "Mathematics"
  | .CHINESE => "Chinese Literature"
  | .ENGLISH => "English"
  | .SCIENCE => "Science"

/-- `Grade` enum from types.ts. -/
inductive Grade where
  | PRIMARY
  | MIDDLE
deriving DecidableEq

/-- The string value each `Grade` enum member carries in types.ts. -/
def gradeStr : Grade → String
  | .PRIMARY => "Primary School"
  | .MIDDLE => "Middle School"

/-- `TaskMode` enum from types.ts. -/
inductive TaskMode where
  | MISTAKE_ANALYSIS
  | CONCEPT_EXPLANATION
  | HOMEWORK_HELP
deriving DecidableEq

/-- `PedagogicalState` enum from types.ts. -/
inductive PedagogicalState where
  | GUIDING
  | EXPLAINING
  | QUIZZING
deriving DecidableEq

/-- The string value each `PedagogicalState` enum member carries in types.ts. -/
def pedStateStr : PedagogicalState → String
  | .GUIDING => "GUIDING"
  | .EXPLAINING => "EXPLAINING"
  | .QUIZZING => "QUIZZING"

/-- The `masteryLevel` union type `'Novice' | 'Intermediate' | 'Advanced'`. -/
inductive MasteryLevel where
  | Novice
  | Intermediate
  | Advanced
deriving DecidableEq

/-- The string each `MasteryLevel` member denotes. -/
def masteryStr : MasteryLevel → String
  | .Novice => "Novice"
  | .Intermediate => "Intermediate"
  | .Advanced => "Advanced"

/-- `StudentProfile` from types.ts (the variant with the mandatory `email`
database key).  The JavaScript `number` field `age` is modelled as `Nat`
(the reference data only ever uses nonnegative integer ages). -/
structure StudentProfile where
  name : String
  age : Nat
  grade : Grade
  masteryLevel : MasteryLevel
  email : String
deriving DecidableEq

/-- `StructuredAIResponse` from types.ts: the model-output wire contract.
`student_mastery_score` is a JavaScript number used as an integer score. -/
structure StructuredAIResponse where
  content_for_user : String
  internal_monologue : String
  knowledge_point_id : String
  student_mastery_score : Int
  suggested_next_state : PedagogicalState
  is_direct_answer_attempt : Bool
deriving DecidableEq

/-- The `role` union of `ChatMessage`. -/
inductive Role where
  | user
  | assistant
  | system
deriving DecidableEq

/-- `ChatMessage` from types.ts.  `metadata` is the optional attached
structured response; `timestamp` is the `Date.now()` milliseconds value. -/
structure ChatMessage where
  id : String
  role : Role
  content : String
  metadata : Option StructuredAIResponse := none
  timestamp : Nat
deriving DecidableEq

/-- `MistakeRecord` from types.ts (without the IndexedDB auto-increment `id`,
which is absent from the record the controller passes to `addMistake`). -/
structure MistakeRecord where
  userEmail : String
  subject : Subject
  question : String
  analysis : String
  knowledgePoint : String
  timestamp : Nat
deriving DecidableEq

/-! ## Decimal rendering of the student age

JavaScript template literals convert the number `student.age` to its decimal
string.  `decGoF` is a fuel-driven (hence kernel-evaluable) standard decimal
rendering; the fuel `n` itself always suffices. -/

def decGoF : Nat → Nat → List Char → List Char
  | 0, n, acc => Nat.digitChar (n % 10) :: acc
  | f + 1, n, acc =>
    let acc' := Nat.digitChar (n % 10) :: acc
    if n < 10 then acc' else decGoF f (n / 10) acc'

/-- Decimal digit characters of `n`, most significant first. -/
def decChars (n : Nat) : List Char := decGoF n n []

/-- Decimal string of `n` (the model of JavaScript number-to-string for the
integer `age`). -/
def decStr (n : Nat) : String := String.mk (decChars n)

/-! ## Instruction Builder (src/services/promptEngineering.ts) -/

/-- `baseIdentity` template literal of `constructSystemPrompt`. -/
def baseIdentity (subject : Subject) : String :=
  "You are EduMind, an expert AI tutor for K-12 education specializing in "
    ++ subjectStr subject ++ "."

/-- `audienceConstraint` template literal of `constructSystemPrompt`
(byte-exact, including the trailing spaces and two-space indentation of the
source template). -/
def audienceConstraint (student : StudentProfile) : String :=
  "Your student is in " ++ gradeStr student.grade ++ " (approx "
    ++ decStr student.age
    ++ " years old). \n  Adjust your vocabulary and tone to be age-appropriate. \n  Current Mastery Level: "
    ++ masteryStr student.masteryLevel ++ "."

/-- The `switch (currentState)` assignment to `behavioralDirectives` in
`constructSystemPrompt`, rendered as a function of the state (and of the
student, whose grade is interpolated in the EXPLAINING branch). -/
def behavioralDirectives (currentState : PedagogicalState) (student : StudentProfile) : String :=
  match currentState with
  | .GUIDING =>
    "\n      CURRENT STATE: [GUIDING/SOCRATIC]\n      - DO NOT provide direct answers.\n      - Ask guiding questions to help the student realize their mistake.\n      - If they are stuck, provide a small hint, but not the solution.\n      - Focus on the \"Process\", not the \"Result\".\n      "
  | .EXPLAINING =>
    "\n      CURRENT STATE: [EXPLAINING/DEEP DIVE]\n      - The student has shown confusion or explicitly asked for an explanation.\n      - Provide clear, conceptual explanations using analogies suitable for a "
      ++ gradeStr student.grade
      ++ " student.\n      - Link the concept to real-world examples.\n      "
  | .QUIZZING =>
    "\n      CURRENT STATE: [QUIZZING/CONSOLIDATION]\n      - The student seems to understand the concept.\n      - Generate a NEW similar problem to test their understanding.\n      - Verify if they can apply the knowledge independently.\n      "

/-- The `modeDirectives` conditional of `constructSystemPrompt`. -/
def modeDirectives (mode : TaskMode) : String :=
  if mode = .MISTAKE_ANALYSIS then
    "You are analyzing a mistake. Find the root cause of the error."
  else
    "You are explaining a new concept."

/-- The `outputFormat` template literal of `constructSystemPrompt`
(braces of the embedded JSON schema written as \x7b / \x7d). -/
def outputFormat : String :=
  "\n  CRITICAL OUTPUT RULES:\n  You must respond in strict JSON format. Do not add markdown backticks around the JSON.\n  \n  JSON Schema:\n  \x7b\n    \"content_for_user\": \"The actual text response to the student.\",\n    \"internal_monologue\": \"Your internal reasoning about the student's state.\",\n    \"knowledge_point_id\": \"Short ID of the concept (e.g., MATH_05_FRACTIONS)\",\n    \"student_mastery_score\": number (0-100 estimate based on conversation),\n    \"suggested_next_state\": \"GUIDING\" | \"EXPLAINING\" | \"QUIZZING\",\n    \"is_direct_answer_attempt\": boolean (true if the user just asked for the answer without trying)\n  \x7d\n  "

/-- `constructSystemPrompt` from src/services/promptEngineering.ts:
the final return template concatenating the four segments with the
`"\n  "` separators of the outer template literal. -/
def constructSystemPrompt (subject : Subject) (student : StudentProfile)
    (mode : TaskMode) (currentState : PedagogicalState) : String :=
  baseIdentity subject ++ "\n  " ++ audienceConstraint student ++ "\n  "
    ++ modeDirectives mode ++ "\n  " ++ behavioralDirectives currentState student
    ++ "\n  " ++ outputFormat

/-! ## Substring machinery

`InfixOf p s` states that the character list `p` occurs contiguously inside
`s`.  `subB` is a tail-recursive boolean scanner used to discharge concrete
(non-)containment facts by kernel evaluation. -/

/-- `p` occurs contiguously inside `s`. -/
def InfixOf (p s : List Char) : Prop := ∃ l r, s = l ++ p ++ r

/-- Boolean test: `p` is a prefix of `s`. -/
def isPfx : List Char → List Char → Bool
  | [], _ => true
  | _ :: _, [] => false
  | a :: as, b :: bs => a == b && isPfx as bs

/-- Tail-recursive boolean substring scan. -/
def subB (p : List Char) : List Char → Bool
  | [] => isPfx p []
  | s@(_ :: rest) => isPfx p s || subB p rest

theorem isPfx_iff (p : List Char) : ∀ s, isPfx p s = true ↔ ∃ r, s = p ++ r := by
  induction p with
  | nil =>
    intro s
    simp [isPfx]
  | cons a as ih =>
    intro s
    cases s with
    | nil => simp [isPfx]
    | cons b bs =>
      simp only [isPfx, Bool.and_eq_true, beq_iff_eq, ih bs]
      constructor
      · rintro ⟨rfl, r, rfl⟩
        exact ⟨r, rfl⟩
      · rintro ⟨r, h⟩
        cases h
        exact ⟨rfl, r, rfl⟩

theorem subB_iff (p : List Char) : ∀ s, subB p s = true ↔ InfixOf p s := by
  intro s
  induction s with
  | nil =>
    simp only [subB, isPfx_iff, InfixOf]
    constructor
    · rintro ⟨r, h⟩
      exact ⟨[], r, h⟩
    · rintro ⟨l, r, h⟩
      cases l with
      | nil => exact ⟨r, h⟩
      | cons x xs => simp at h
  | cons b bs ih =>
    simp only [subB, Bool.or_eq_true, isPfx_iff, ih]
    constructor
    · rintro (⟨r, h⟩ | ⟨l, r, h⟩)
      · exact ⟨[], r, h⟩
      · exact ⟨b :: l, r, by simp [h]⟩
    · rintro ⟨l, r, h⟩
      cases l with
      | nil => exact Or.inl ⟨r, h⟩
      | cons x xs =>
        cases h
        exact Or.inr ⟨xs, r, rfl⟩

theorem infixOf_of_subB {p s : List Char} (h : subB p s = true) : InfixOf p s :=
  (subB_iff p s).mp h

theorem not_infixOf_of_subB {p s : List Char} (h : subB p s = false) :
    ¬ InfixOf p s := by
  intro hin
  rw [(subB_iff p s).mpr hin] at h
  exact absurd h (by simp)

theorem infixOf_append_left {p s : List Char} (l : List Char) (h : InfixOf p s) :
    InfixOf p (l ++ s) := by
  obtain ⟨a, b, rfl⟩ := h
  exact ⟨l ++ a, b, by simp⟩

theorem infixOf_append_right {p s : List Char} (r : List Char) (h : InfixOf p s) :
    InfixOf p (s ++ r) := by
  obtain ⟨a, b, rfl⟩ := h
  exact ⟨a, b ++ r, by simp⟩

/-! ### Splitting a containment across a separator

If every character of a nonempty separator `d` is absent from `p`, an
occurrence of `p` in `a ++ d ++ b` cannot overlap `d`, so it lies wholly in
`a` or wholly in `b`. -/

theorem pfx_split {d b : List Char} (hd : d ≠ []) :
    ∀ (a p : List Char), (∀ c ∈ d, c ∉ p) →
      (∃ t, a ++ (d ++ b) = p ++ t) → ∃ t, a = p ++ t := by
  intro a
  induction a with
  | nil =>
    intro p hsep ⟨t, h⟩
    cases p with
    | nil => exact ⟨[], rfl⟩
    | cons q p' =>
      cases d with
      | nil => exact absurd rfl hd
      | cons e d' =>
        simp only [List.nil_append, List.cons_append] at h
        obtain ⟨heq, -⟩ := List.cons.inj h
        subst heq
        exact absurd (List.mem_cons_self e p') (hsep e (List.mem_cons_self e d'))
  | cons x a' ih =>
    intro p hsep ⟨t, h⟩
    cases p with
    | nil => exact ⟨x :: a', rfl⟩
    | cons q p' =>
      simp only [List.cons_append] at h
      obtain ⟨rfl, h2⟩ := List.cons.inj h
      obtain ⟨t', ht⟩ := ih p' (fun c hc hcp => hsep c hc (List.mem_cons_of_mem _ hcp)) ⟨t, h2⟩
      exact ⟨t', by rw [ht]; rfl⟩

theorem infixOf_drop_sep {b : List Char} :
    ∀ (d p : List Char), (∀ c ∈ d, c ∉ p) →
      InfixOf p (d ++ b) → InfixOf p b := by
  intro d
  induction d with
  | nil => intro p _ h; exact h
  | cons e d' ih =>
    intro p hsep h
    obtain ⟨l, r, hl⟩ := h
    cases l with
    | nil =>
      cases p with
      | nil => exact ⟨[], b, rfl⟩
      | cons q p' =>
        simp only [List.nil_append, List.cons_append] at hl
        obtain ⟨heq, -⟩ := List.cons.inj hl
        subst heq
        exact absurd (List.mem_cons_self e p') (hsep e (List.mem_cons_self e d'))
    | cons x l' =>
      simp only [List.cons_append] at hl
      obtain ⟨-, h2⟩ := List.cons.inj hl
      exact ih p (fun c hc hcp => hsep c (List.mem_cons_of_mem _ hc) hcp) ⟨l', r, h2⟩

theorem infixOf_split {d : List Char} (hd : d ≠ []) :
    ∀ (a b p : List Char), (∀ c ∈ d, c ∉ p) →
      InfixOf p (a ++ (d ++ b)) → InfixOf p a ∨ InfixOf p b := by
  intro a
  induction a with
  | nil =>
    intro b p hsep h
    exact Or.inr (infixOf_drop_sep d p hsep (by simpa using h))
  | cons x a' ih =>
    intro b p hsep h
    obtain ⟨l, r, hl⟩ := h
    cases l with
    | nil =>
      obtain ⟨t, ht⟩ := pfx_split hd (x :: a') p hsep ⟨r, by simpa using hl⟩
      exact Or.inl ⟨[], t, by simpa using ht⟩
    | cons y l' =>
      simp only [List.cons_append] at hl
      obtain ⟨-, h2⟩ := List.cons.inj hl
      rcases ih b p hsep ⟨l', r, h2⟩ with h3 | h3
      · exact Or.inl (infixOf_append_left [x] h3)
      · exact Or.inr h3

theorem not_infixOf_cons_nl {p : List Char} (hnl : '\n' ∉ p) (a b : List Char)
    (ha : ¬ InfixOf p a) (hb : ¬ InfixOf p b) : ¬ InfixOf p (a ++ '\n' :: b) := by
  intro h
  have h' : InfixOf p (a ++ (['\n'] ++ b)) := h
  rcases infixOf_split (by simp) a b p
      (fun c hc hcp => by simp at hc; subst hc; exact hnl hcp) h' with h2 | h2
  · exact ha h2
  · exact hb h2

/-! ### The age digits as a separator -/

theorem digitChar_isDigit {m : Nat} (h : m < 10) : (Nat.digitChar m).isDigit = true := by
  interval_cases m <;> rfl

theorem decGoF_all_digits :
    ∀ (f n : Nat) (acc : List Char), (∀ c ∈ acc, c.isDigit = true) →
      ∀ c ∈ decGoF f n acc, c.isDigit = true := by
  intro f
  induction f with
  | zero =>
    intro n acc hacc c hc
    simp only [decGoF] at hc
    rcases List.mem_cons.mp hc with rfl | hc
    · exact digitChar_isDigit (Nat.mod_lt _ (by omega))
    · exact hacc c hc
  | succ f ih =>
    intro n acc hacc c hc
    simp only [decGoF] at hc
    split at hc
    · rcases List.mem_cons.mp hc with rfl | hc
      · exact digitChar_isDigit (Nat.mod_lt _ (by omega))
      · exact hacc c hc
    · refine ih (n / 10) _ ?_ c hc
      intro c' hc'
      rcases List.mem_cons.mp hc' with rfl | hc'
      · exact digitChar_isDigit (Nat.mod_lt _ (by omega))
      · exact hacc c' hc'

theorem decChars_all_digits (n : Nat) : ∀ c ∈ decChars n, c.isDigit = true :=
  decGoF_all_digits n n [] (by simp)

theorem decGoF_ne_nil : ∀ (f n : Nat) (acc : List Char), decGoF f n acc ≠ [] := by
  intro f
  induction f with
  | zero => intro n acc; simp [decGoF]
  | succ f ih =>
    intro n acc
    simp only [decGoF]
    split
    · simp
    · exact ih (n / 10) _

theorem decChars_ne_nil (n : Nat) : decChars n ≠ [] := decGoF_ne_nil n n []

theorem not_infixOf_age {p : List Char} (n : Nat)
    (hdig : ∀ c ∈ p, c.isDigit = false) (a b : List Char)
    (ha : ¬ InfixOf p a) (hb : ¬ InfixOf p b) :
    ¬ InfixOf p (a ++ (decChars n ++ b)) := by
  intro h
  rcases infixOf_split (decChars_ne_nil n) a b p
      (fun c hc hcp => by
        have h1 := decChars_all_digits n c hc
        have h2 := hdig c hcp
        rw [h1] at h2
        exact Bool.noConfusion h2) h with h2 | h2
  · exact ha h2
  · exact hb h2

/-! ### Decomposition of the assembled instruction text

`prompt_data_shape` re-associates the character data of the assembled
instruction into segments separated by the newline characters of the
`"\n  "` template separators and by the decimal digits of the student age,
so that (non-)containment can be settled segment by segment. -/

theorem data_mk (l : List Char) : (String.mk l).data = l := rfl

theorem nlsep_data : ("\n  " : String).data = '\n' :: ("  " : String).data := rfl

theorem prompt_data_shape (subject : Subject) (student : StudentProfile)
    (mode : TaskMode) (st : PedagogicalState) :
    (constructSystemPrompt subject student mode st).data =
      (baseIdentity subject).data ++ ('\n' :: ((("  " : String).data ++ (("Your student is in " : String).data ++ ((gradeStr student.grade).data ++ (" (approx " : String).data))) ++ (decChars student.age ++ ((((" years old). \n  Adjust your vocabulary and tone to be age-appropriate. \n  Current Mastery Level: " : String).data ++ ((masteryStr student.masteryLevel).data ++ ("." : String).data))) ++ ('\n' :: ((("  " : String).data ++ (modeDirectives mode).data) ++ ('\n' :: ((("  " : String).data ++ (behavioralDirectives st student).data) ++ ('\n' :: (("  " : String).data ++ outputFormat.data)))))))))) := by
  simp only [constructSystemPrompt, audienceConstraint, decStr, String.data_append,
    data_mk, nlsep_data, List.cons_append, List.append_assoc]

/-- Master lemma: a pattern `p` with no newline and no digit characters does
not occur in the assembled instruction as soon as it occurs in none of the
six concrete segments. -/
theorem prompt_not_contains (p : List Char) (hnl : '\n' ∉ p)
    (hdig : ∀ c ∈ p, c.isDigit = false)
    (subject : Subject) (student : StudentProfile) (mode : TaskMode)
    (st : PedagogicalState)
    (hA : ¬ InfixOf p (baseIdentity subject).data)
    (hF : ¬ InfixOf p (("  " : String).data ++ (("Your student is in " : String).data ++ ((gradeStr student.grade).data ++ (" (approx " : String).data))))
    (hB : ¬ InfixOf p (((" years old). \n  Adjust your vocabulary and tone to be age-appropriate. \n  Current Mastery Level: " : String).data ++ ((masteryStr student.masteryLevel).data ++ ("." : String).data))))
    (hC : ¬ InfixOf p (("  " : String).data ++ (modeDirectives mode).data))
    (hD : ¬ InfixOf p (("  " : String).data ++ (behavioralDirectives st student).data))
    (hE : ¬ InfixOf p (("  " : String).data ++ outputFormat.data)) :
    ¬ InfixOf p (constructSystemPrompt subject student mode st).data := by
  rw [prompt_data_shape]
  refine not_infixOf_cons_nl hnl _ _ hA ?_
  refine not_infixOf_age _ hdig _ _ hF ?_
  refine not_infixOf_cons_nl hnl _ _ hB ?_
  refine not_infixOf_cons_nl hnl _ _ hC ?_
  exact not_infixOf_cons_nl hnl _ _ hD hE

theorem infixOf_cons {p s : List Char} (c : Char) (h : InfixOf p s) :
    InfixOf p (c :: s) := infixOf_append_left [c] h

/-- Any pattern occurring in the state-specific behavioral directive occurs in
the assembled instruction text. -/
theorem infixOf_prompt_of_behavioral {p : List Char} (subject : Subject)
    (student : StudentProfile) (mode : TaskMode) (st : PedagogicalState)
    (h : InfixOf p (behavioralDirectives st student).data) :
    InfixOf p (constructSystemPrompt subject student mode st).data := by
  rw [prompt_data_shape]
  apply infixOf_append_left
  apply infixOf_cons
  apply infixOf_append_left
  apply infixOf_append_left
  apply infixOf_append_left
  apply infixOf_cons
  apply infixOf_append_left
  apply infixOf_cons
  apply infixOf_append_right
  exact infixOf_append_left _ h

/-- Core non-containment lemma quantified over all instruction-builder inputs:
the five state-independent segments are given as finitely many scans, the
behavioral segment as one hypothesis per student. -/
theorem prompt_not_contains_core (p : List Char) (hnl : '\n' ∉ p)
    (hdig : ∀ c ∈ p, c.isDigit = false)
    (hA : ∀ s : Subject, ¬ InfixOf p (baseIdentity s).data)
    (hF : ∀ g : Grade, ¬ InfixOf p (("  " : String).data ++ (("Your student is in " : String).data ++ ((gradeStr g).data ++ (" (approx " : String).data))))
    (hB : ∀ ml : MasteryLevel, ¬ InfixOf p ((" years old). \n  Adjust your vocabulary and tone to be age-appropriate. \n  Current Mastery Level: " : String).data ++ ((masteryStr ml).data ++ ("." : String).data)))
    (hC : ∀ m : TaskMode, ¬ InfixOf p (("  " : String).data ++ (modeDirectives m).data))
    (hE : ¬ InfixOf p (("  " : String).data ++ outputFormat.data))
    (st : PedagogicalState)
    (hD : ∀ student : StudentProfile,
      ¬ InfixOf p (("  " : String).data ++ (behavioralDirectives st student).data)) :
    ∀ (subject : Subject) (student : StudentProfile) (mode : TaskMode),
      ¬ InfixOf p (constructSystemPrompt subject student mode st).data := by
  intro subject student mode
  exact prompt_not_contains p hnl hdig subject student mode st
    (hA subject) (hF student.grade) (hB student.masteryLevel) (hC mode)
    (hD student) hE

/-! ## The state-specific directive keywords (spec section 4.1 table) -/

/-- Distinctive literal keyword phrases of each state's behavioral directive,
as they appear in the promptEngineering.ts switch branches. -/
def stateDirectives : PedagogicalState → List String
  | .GUIDING =>
    ["DO NOT provide direct answers", "Ask guiding questions",
     "provide a small hint", "Focus on the \"Process\", not the \"Result\"."]
  | .EXPLAINING =>
    ["Provide clear, conceptual explanations using analogies",
     "Link the concept to real-world examples."]
  | .QUIZZING =>
    ["Generate a NEW similar problem", "apply the knowledge independently"]

/-- **C6**: for each of the three pedagogical states, the instruction text
built by `constructSystemPrompt` contains every keyword phrase of that
state's own directive (GUIDING: forbid direct answers / guiding questions /
small hint / process over result; EXPLAINING: clear conceptual explanation
with analogies and real-world linkage; QUIZZING: generate a new similar
problem), and never contains a keyword phrase of another state's directive —
for every subject, student profile and task mode. -/
theorem c6_state_directive_exclusivity (st : PedagogicalState) (subject : Subject)
    (student : StudentProfile) (mode : TaskMode) :
    (∀ phr ∈ stateDirectives st,
        InfixOf phr.data (constructSystemPrompt subject student mode st).data) ∧
    (∀ st' : PedagogicalState, st' ≠ st → ∀ phr ∈ stateDirectives st',
        ¬ InfixOf phr.data (constructSystemPrompt subject student mode st).data) := by
  obtain ⟨nm, age, g, ml, em⟩ := student
  cases st with
  | GUIDING =>
    constructor
    · intro phr hp
      simp only [stateDirectives, List.mem_cons, List.not_mem_nil, or_false] at hp
      rcases hp with rfl | rfl | rfl | rfl <;>
        exact infixOf_prompt_of_behavioral _ _ _ _ (infixOf_of_subB rfl)
    · intro st' hne phr hp
      cases st' with
      | GUIDING => exact absurd rfl hne
      | EXPLAINING =>
        simp only [stateDirectives, List.mem_cons, List.not_mem_nil, or_false] at hp
        rcases hp with rfl | rfl
        · apply prompt_not_contains_core
          · decide
          · decide
          · intro sx; cases sx <;> exact not_infixOf_of_subB rfl
          · intro gx; cases gx <;> exact not_infixOf_of_subB rfl
          · intro mlx; cases mlx <;> exact not_infixOf_of_subB rfl
          · intro mx; cases mx <;> exact not_infixOf_of_subB rfl
          · exact not_infixOf_of_subB rfl
          · intro sx; exact not_infixOf_of_subB rfl
        · apply prompt_not_contains_core
          · decide
          · decide
          · intro sx; cases sx <;> exact not_infixOf_of_subB rfl
          · intro gx; cases gx <;> exact not_infixOf_of_subB rfl
          · intro mlx; cases mlx <;> exact not_infixOf_of_subB rfl
          · intro mx; cases mx <;> exact not_infixOf_of_subB rfl
          · exact not_infixOf_of_subB rfl
          · intro sx; exact not_infixOf_of_subB rfl
      | QUIZZING =>
        simp only [stateDirectives, List.mem_cons, List.not_mem_nil, or_false] at hp
        rcases hp with rfl | rfl
        · apply prompt_not_contains_core
          · decide
          · decide
          · intro sx; cases sx <;> exact not_infixOf_of_subB rfl
          · intro gx; cases gx <;> exact not_infixOf_of_subB rfl
          · intro mlx; cases mlx <;> exact not_infixOf_of_subB rfl
          · intro mx; cases mx <;> exact not_infixOf_of_subB rfl
          · exact not_infixOf_of_subB rfl
          · intro sx; exact not_infixOf_of_subB rfl
        · apply prompt_not_contains_core
          · decide
          · decide
          · intro sx; cases sx <;> exact not_infixOf_of_subB rfl
          · intro gx; cases gx <;> exact not_infixOf_of_subB rfl
          · intro mlx; cases mlx <;> exact not_infixOf_of_subB rfl
          · intro mx; cases mx <;> exact not_infixOf_of_subB rfl
          · exact not_infixOf_of_subB rfl
          · intro sx; exact not_infixOf_of_subB rfl
  | EXPLAINING =>
    constructor
    · intro phr hp
      simp only [stateDirectives, List.mem_cons, List.not_mem_nil, or_false] at hp
      rcases hp with rfl | rfl <;>
        · apply infixOf_prompt_of_behavioral
          cases g <;> exact infixOf_of_subB rfl
    · intro st' hne phr hp
      cases st' with
      | EXPLAINING => exact absurd rfl hne
      | GUIDING =>
        simp only [stateDirectives, List.mem_cons, List.not_mem_nil, or_false] at hp
        rcases hp with rfl | rfl | rfl | rfl
        · apply prompt_not_contains_core
          · decide
          · decide
          · intro sx; cases sx <;> exact not_infixOf_of_subB rfl
          · intro gx; cases gx <;> exact not_infixOf_of_subB rfl
          · intro mlx; cases mlx <;> exact not_infixOf_of_subB rfl
          · intro mx; cases mx <;> exact not_infixOf_of_subB rfl
          · exact not_infixOf_of_subB rfl
          · intro sx
            obtain ⟨-, -, gx, -, -⟩ := sx
            cases gx <;> exact not_infixOf_of_subB rfl
        · apply prompt_not_contains_core
          · decide
          · decide
          · intro sx; cases sx <;> exact not_infixOf_of_subB rfl
          · intro gx; cases gx <;> exact not_infixOf_of_subB rfl
          · intro mlx; cases mlx <;> exact not_infixOf_of_subB rfl
          · intro mx; cases mx <;> exact not_infixOf_of_subB rfl
          · exact not_infixOf_of_subB rfl
          · intro sx
            obtain ⟨-, -, gx, -, -⟩ := sx
            cases gx <;> exact not_infixOf_of_subB rfl
        · apply prompt_not_contains_core
          · decide
          · decide
          · intro sx; cases sx <;> exact not_infixOf_of_subB rfl
          · intro gx; cases gx <;> exact not_infixOf_of_subB rfl
          · intro mlx; cases mlx <;> exact not_infixOf_of_subB rfl
          · intro mx; cases mx <;> exact not_infixOf_of_subB rfl
          · exact not_infixOf_of_subB rfl
          · intro sx
            obtain ⟨-, -, gx, -, -⟩ := sx
            cases gx <;> exact not_infixOf_of_subB rfl
        · apply prompt_not_contains_core
          · decide
          · decide
          · intro sx; cases sx <;> exact not_infixOf_of_subB rfl
          · intro gx; cases gx <;> exact not_infixOf_of_subB rfl
          · intro mlx; cases mlx <;> exact not_infixOf_of_subB rfl
          · intro mx; cases mx <;> exact not_infixOf_of_subB rfl
          · exact not_infixOf_of_subB rfl
          · intro sx
            obtain ⟨-, -, gx, -, -⟩ := sx
            cases gx <;> exact not_infixOf_of_subB rfl
      | QUIZZING =>
        simp only [stateDirectives, List.mem_cons, List.not_mem_nil, or_false] at hp
        rcases hp with rfl | rfl
        · apply prompt_not_contains_core
          · decide
          · decide
          · intro sx; cases sx <;> exact not_infixOf_of_subB rfl
          · intro gx; cases gx <;> exact not_infixOf_of_subB rfl
          · intro mlx; cases mlx <;> exact not_infixOf_of_subB rfl
          · intro mx; cases mx <;> exact not_infixOf_of_subB rfl
          · exact not_infixOf_of_subB rfl
          · intro sx
            obtain ⟨-, -, gx, -, -⟩ := sx
            cases gx <;> exact not_infixOf_of_subB rfl
        · apply prompt_not_contains_core
          · decide
          · decide
          · intro sx; cases sx <;> exact not_infixOf_of_subB rfl
          · intro gx; cases gx <;> exact not_infixOf_of_subB rfl
          · intro mlx; cases mlx <;> exact not_infixOf_of_subB rfl
          · intro mx; cases mx <;> exact not_infixOf_of_subB rfl
          · exact not_infixOf_of_subB rfl
          · intro sx
            obtain ⟨-, -, gx, -, -⟩ := sx
            cases gx <;> exact not_infixOf_of_subB rfl
  | QUIZZING =>
    constructor
    · intro phr hp
      simp only [stateDirectives, List.mem_cons, List.not_mem_nil, or_false] at hp
      rcases hp with rfl | rfl <;>
        exact infixOf_prompt_of_behavioral _ _ _ _ (infixOf_of_subB rfl)
    · intro st' hne phr hp
      cases st' with
      | QUIZZING => exact absurd rfl hne
      | GUIDING =>
        simp only [stateDirectives, List.mem_cons, List.not_mem_nil, or_false] at hp
        rcases hp with rfl | rfl | rfl | rfl
        · apply prompt_not_contains_core
          · decide
          · decide
          · intro sx; cases sx <;> exact not_infixOf_of_subB rfl
          · intro gx; cases gx <;> exact not_infixOf_of_subB rfl
          · intro mlx; cases mlx <;> exact not_infixOf_of_subB rfl
          · intro mx; cases mx <;> exact not_infixOf_of_subB rfl
          · exact not_infixOf_of_subB rfl
          · intro sx; exact not_infixOf_of_subB rfl
        · apply prompt_not_contains_core
          · decide
          · decide
          · intro sx; cases sx <;> exact not_infixOf_of_subB rfl
          · intro gx; cases gx <;> exact not_infixOf_of_subB rfl
          · intro mlx; cases mlx <;> exact not_infixOf_of_subB rfl
          · intro mx; cases mx <;> exact not_infixOf_of_subB rfl
          · exact not_infixOf_of_subB rfl
          · intro sx; exact not_infixOf_of_subB rfl
        · apply prompt_not_contains_core
          · decide
          · decide
          · intro sx; cases sx <;> exact not_infixOf_of_subB rfl
          · intro gx; cases gx <;> exact not_infixOf_of_subB rfl
          · intro mlx; cases mlx <;> exact not_infixOf_of_subB rfl
          · intro mx; cases mx <;> exact not_infixOf_of_subB rfl
          · exact not_infixOf_of_subB rfl
          · intro sx; exact not_infixOf_of_subB rfl
        · apply prompt_not_contains_core
          · decide
          · decide
          · intro sx; cases sx <;> exact not_infixOf_of_subB rfl
          · intro gx; cases gx <;> exact not_infixOf_of_subB rfl
          · intro mlx; cases mlx <;> exact not_infixOf_of_subB rfl
          · intro mx; cases mx <;> exact not_infixOf_of_subB rfl
          · exact not_infixOf_of_subB rfl
          · intro sx; exact not_infixOf_of_subB rfl
      | EXPLAINING =>
        simp only [stateDirectives, List.mem_cons, List.not_mem_nil, or_false] at hp
        rcases hp with rfl | rfl
        · apply prompt_not_contains_core
          · decide
          · decide
          · intro sx; cases sx <;> exact not_infixOf_of_subB rfl
          · intro gx; cases gx <;> exact not_infixOf_of_subB rfl
          · intro mlx; cases mlx <;> exact not_infixOf_of_subB rfl
          · intro mx; cases mx <;> exact not_infixOf_of_subB rfl
          · exact not_infixOf_of_subB rfl
          · intro sx; exact not_infixOf_of_subB rfl
        · apply prompt_not_contains_core
          · decide
          · decide
          · intro sx; cases sx <;> exact not_infixOf_of_subB rfl
          · intro gx; cases gx <;> exact not_infixOf_of_subB rfl
          · intro mlx; cases mlx <;> exact not_infixOf_of_subB rfl
          · intro mx; cases mx <;> exact not_infixOf_of_subB rfl
          · exact not_infixOf_of_subB rfl
          · intro sx; exact not_infixOf_of_subB rfl

/-- Witness for C6 at concrete inputs: in GUIDING the no-direct-answer
directive is present and the QUIZZING new-problem directive is absent. -/
theorem c6_state_directive_exclusivity_witness :
    InfixOf ("DO NOT provide direct answers" : String).data
      (constructSystemPrompt .MATH ⟨"Student", 11, .PRIMARY, .Intermediate, "guest@edumind.ai"⟩
        .MISTAKE_ANALYSIS .GUIDING).data ∧
    ¬ InfixOf ("Generate a NEW similar problem" : String).data
      (constructSystemPrompt .MATH ⟨"Student", 11, .PRIMARY, .Intermediate, "guest@edumind.ai"⟩
        .MISTAKE_ANALYSIS .GUIDING).data := by
  constructor
  · exact (c6_state_directive_exclusivity .GUIDING .MATH _ .MISTAKE_ANALYSIS).1
      "DO NOT provide direct answers" (by simp [stateDirectives])
  · exact (c6_state_directive_exclusivity .GUIDING .MATH _ .MISTAKE_ANALYSIS).2
      .QUIZZING (by decide) "Generate a NEW similar problem" (by simp [stateDirectives])

/-- **C7** (evaluation at the failing inputs): contrary to the claim — and to
the repository's own TechnicalDocs, which state that for `Grade.PRIMARY` the
prompt engine appends a "Focus on concrete examples" directive — the
instruction text built for a PRIMARY-grade profile contains no
concrete-example/analogy directive (no occurrence of "concrete" or "analog"),
and the one built for a MIDDLE-grade profile contains no formal-definition
directive (no occurrence of "formal"): the audience constraint is identical
in form for both grades. -/
theorem c7_grade_directives_absent :
    ¬ InfixOf ("concrete" : String).data
      (constructSystemPrompt .MATH ⟨"Student", 11, .PRIMARY, .Intermediate, "guest@edumind.ai"⟩
        .CONCEPT_EXPLANATION .GUIDING).data ∧
    ¬ InfixOf ("analog" : String).data
      (constructSystemPrompt .MATH ⟨"Student", 11, .PRIMARY, .Intermediate, "guest@edumind.ai"⟩
        .CONCEPT_EXPLANATION .GUIDING).data ∧
    ¬ InfixOf ("formal" : String).data
      (constructSystemPrompt .MATH ⟨"Student", 12, .MIDDLE, .Intermediate, "guest@edumind.ai"⟩
        .CONCEPT_EXPLANATION .GUIDING).data := by
  refine ⟨?_, ?_, ?_⟩
  · apply prompt_not_contains_core
    · decide
    · decide
    · intro sx; cases sx <;> exact not_infixOf_of_subB rfl
    · intro gx; cases gx <;> exact not_infixOf_of_subB rfl
    · intro mlx; cases mlx <;> exact not_infixOf_of_subB rfl
    · intro mx; cases mx <;> exact not_infixOf_of_subB rfl
    · exact not_infixOf_of_subB rfl
    · intro sx; exact not_infixOf_of_subB rfl
  · apply prompt_not_contains_core
    · decide
    · decide
    · intro sx; cases sx <;> exact not_infixOf_of_subB rfl
    · intro gx; cases gx <;> exact not_infixOf_of_subB rfl
    · intro mlx; cases mlx <;> exact not_infixOf_of_subB rfl
    · intro mx; cases mx <;> exact not_infixOf_of_subB rfl
    · exact not_infixOf_of_subB rfl
    · intro sx; exact not_infixOf_of_subB rfl
  · apply prompt_not_contains_core
    · decide
    · decide
    · intro sx; cases sx <;> exact not_infixOf_of_subB rfl
    · intro gx; cases gx <;> exact not_infixOf_of_subB rfl
    · intro mlx; cases mlx <;> exact not_infixOf_of_subB rfl
    · intro mx; cases mx <;> exact not_infixOf_of_subB rfl
    · exact not_infixOf_of_subB rfl
    · intro sx; exact not_infixOf_of_subB rfl

/-! ## Whitespace, trimming and code-fence stripping

`trimChars` models `String.prototype.trim` and the whitespace skipping of
`JSON.parse` (whitespace = the JSON set: space, tab, newline, carriage
return). `stripGo` models the global regex replace
`raw.replace(/```json\n?|\n?```/g, '')` of localLlmService.ts: a left-to-right
scan that at each position first tries the alternative with the json tag
(greedy optional newline), then the bare-fence alternative (greedy optional
leading newline), and otherwise keeps the character. -/

def isWsChar (c : Char) : Bool :=
  c == ' ' || c == '\t' || c == '\n' || c == '\r'

def skipWs (l : List Char) : List Char := l.dropWhile isWsChar

def trimChars (l : List Char) : List Char :=
  List.rdropWhile isWsChar (l.dropWhile isWsChar)

def trimStr (s : String) : String := String.mk (trimChars s.data)

/-- The four fence patterns of the regex, in the order the JS alternation
tries them at each scan position. -/
def fenceA : List Char := ("```json\n" : String).data
def fenceB : List Char := ("```json" : String).data
def fenceC : List Char := ("\n```" : String).data
def fenceD : List Char := ("```" : String).data

def stripGo : Nat → List Char → List Char
  | 0, l => l
  | _ + 1, [] => []
  | f + 1, c :: cs =>
    if isPfx fenceA (c :: cs) then stripGo f (cs.drop 7)
    else if isPfx fenceB (c :: cs) then stripGo f (cs.drop 6)
    else if isPfx fenceC (c :: cs) then stripGo f (cs.drop 3)
    else if isPfx fenceD (c :: cs) then stripGo f (cs.drop 2)
    else c :: stripGo f cs

def stripChars (l : List Char) : List Char := stripGo l.length l

def stripFences (s : String) : String := String.mk (stripChars s.data)

/-! ## JSON values and a model of JSON.parse

Numbers are kept as their literal text (the claims under verification never
depend on numeric evaluation, only on syntactic identity of parses), object
members are kept in textual order, duplicate keys and string-internal control
characters are not policed — all behaviours on which the verified claims do
not depend. -/

inductive Json where
  | null
  | bool (b : Bool)
  | num (lit : String)
  | str (s : String)
  | arr (elems : List Json)
  | obj (members : List (String × Json))

def hexVal (c : Char) : Option Nat :=
  if '0' ≤ c ∧ c ≤ '9' then some (c.toNat - '0'.toNat)
  else if 'a' ≤ c ∧ c ≤ 'f' then some (c.toNat - 'a'.toNat + 10)
  else if 'A' ≤ c ∧ c ≤ 'F' then some (c.toNat - 'A'.toNat + 10)
  else none

/-- JSON string-literal body parser (after the opening quote), accumulating
decoded characters; handles the JSON escapes including `\uXXXX`. -/
def parseStrGo : List Char → List Char → Option (String × List Char)
  | _, [] => none
  | acc, '\x22' :: rest => some (String.mk acc.reverse, rest)
  | acc, '\\' :: e :: rest =>
    match e with
    | '\x22' => parseStrGo ('\x22' :: acc) rest
    | '\\' => parseStrGo ('\\' :: acc) rest
    | '/' => parseStrGo ('/' :: acc) rest
    | 'b' => parseStrGo ('\x08' :: acc) rest
    | 'f' => parseStrGo ('\x0c' :: acc) rest
    | 'n' => parseStrGo ('\n' :: acc) rest
    | 'r' => parseStrGo ('\r' :: acc) rest
    | 't' => parseStrGo ('\t' :: acc) rest
    | 'u' =>
      match rest with
      | h1 :: h2 :: h3 :: h4 :: rest2 =>
        match hexVal h1, hexVal h2, hexVal h3, hexVal h4 with
        | some a, some b, some c, some d =>
          let n := ((a * 16 + b) * 16 + c) * 16 + d
          if n.isValidChar then parseStrGo (Char.ofNat n :: acc) rest2 else none
        | _, _, _, _ => none
      | _ => none
    | _ => none
  | acc, c :: rest => parseStrGo (c :: acc) rest

/-- Exponent tail of a JSON number literal (after the `e`/`E`). -/
def expTail (t : List Char) : Option (List Char × List Char) :=
  let (sg, t1) :=
    match t with
    | '+' :: u => ((['+'] : List Char), u)
    | '-' :: u => ((['-'] : List Char), u)
    | _ => (([] : List Char), t)
  let es := t1.takeWhile Char.isDigit
  if es.isEmpty then none else some (sg ++ es, t1.drop es.length)

/-- JSON number literal scanner: returns the literal characters and the rest. -/
def numLitChars (l : List Char) : Option (List Char × List Char) :=
  let (sgn, l1) :=
    match l with
    | '-' :: t => ((['-'] : List Char), t)
    | _ => (([] : List Char), l)
  let ds := l1.takeWhile Char.isDigit
  let l2 := l1.drop ds.length
  if ds.isEmpty then none
  else
    let (fr, l3) :=
      match l2 with
      | '.' :: t =>
        let fs := t.takeWhile Char.isDigit
        ((if fs.isEmpty then none else some ('.' :: fs)), t.drop fs.length)
      | _ => ((some ([] : List Char)), l2)
    match fr with
    | none => none
    | some frl =>
      match l3 with
      | 'e' :: t =>
        (match expTail t with
         | some (echars, r) => some (sgn ++ ds ++ frl ++ ('e' :: echars), r)
         | none => none)
      | 'E' :: t =>
        (match expTail t with
         | some (echars, r) => some (sgn ++ ds ++ frl ++ ('E' :: echars), r)
         | none => none)
      | _ => some (sgn ++ ds ++ frl, l3)

/-- Parser modes: a single value, array elements, object members. -/
inductive PMode where
  | val
  | elems
  | members

inductive POut where
  | v (j : Json) (rest : List Char)
  | vs (js : List Json) (rest : List Char)
  | ms (kvs : List (String × Json)) (rest : List Char)

/-- Fuel-driven recursive-descent JSON parser (kernel-evaluable). -/
def parseP : Nat → PMode → List Char → Option POut
  | 0, _, _ => none
  | f + 1, .val, l =>
    match skipWs l with
    | 'n' :: 'u' :: 'l' :: 'l' :: rest => some (.v .null rest)
    | 't' :: 'r' :: 'u' :: 'e' :: rest => some (.v (.bool true) rest)
    | 'f' :: 'a' :: 'l' :: 's' :: 'e' :: rest => some (.v (.bool false) rest)
    | '\x22' :: rest =>
      (match parseStrGo [] rest with
       | some (s, r) => some (.v (.str s) r)
       | none => none)
    | '[' :: rest =>
      (match skipWs rest with
       | ']' :: r2 => some (.v (.arr []) r2)
       | l2 =>
         match parseP f .elems l2 with
         | some (.vs js r2) => some (.v (.arr js) r2)
         | _ => none)
    | '\x7b' :: rest =>
      (match skipWs rest with
       | '\x7d' :: r2 => some (.v (.obj []) r2)
       | l2 =>
         match parseP f .members l2 with
         | some (.ms kvs r2) => some (.v (.obj kvs) r2)
         | _ => none)
    | l' =>
      match numLitChars l' with
      | some (ds, rest) => some (.v (.num (String.mk ds)) rest)
      | none => none
  | f + 1, .elems, l =>
    match parseP f .val l with
    | some (.v j r) =>
      (match skipWs r with
       | ',' :: r2 =>
         (match parseP f .elems r2 with
          | some (.vs js r3) => some (.vs (j :: js) r3)
          | _ => none)
       | ']' :: r2 => some (.vs [j] r2)
       | _ => none)
    | _ => none
  | f + 1, .members, l =>
    match skipWs l with
    | '\x22' :: rest =>
      (match parseStrGo [] rest with
       | some (k, r) =>
         (match skipWs r with
          | ':' :: r2 =>
            (match parseP f .val r2 with
             | some (.v j r3) =>
               (match skipWs r3 with
                | ',' :: r4 =>
                  (match parseP f .members r4 with
                   | some (.ms kvs r5) => some (.ms ((k, j) :: kvs) r5)
                   | _ => none)
                | '\x7d' :: r4 => some (.ms [(k, j)] r4)
                | _ => none)
             | _ => none)
          | _ => none)
       | none => none)
    | _ => none

/-- Model of the platform `JSON.parse`: parse one JSON value allowing
surrounding whitespace (JSON.parse itself ignores leading and trailing
whitespace, so the trim pre-pass is extensionally neutral), failing —
returning `none` for a thrown SyntaxError — on anything else. -/
def jsParse (s : String) : Option Json :=
  let l := trimChars s.data
  match parseP (2 * l.length + 2) .val l with
  | some (.v j rest) => if (skipWs rest).isEmpty then some j else none
  | _ => none

/-! ### Properties of the fence stripper and of trimming -/

theorem isPfx_bt_head_false {R bs : List Char} {c : Char} (hc : c ≠ '\x60') :
    isPfx ('\x60' :: R) (c :: bs) = false := by
  have hb : ('\x60' == c) = false := beq_eq_false_iff_ne.mpr (Ne.symm hc)
  simp [isPfx, hb]

theorem isPfx_fenceC_false {c : Char} {cs : List Char}
    (h : cs.head? ≠ some '\x60') : isPfx fenceC (c :: cs) = false := by
  show isPfx ('\n' :: '\x60' :: '\x60' :: '\x60' :: []) (c :: cs) = false
  cases cs with
  | nil => simp [isPfx]
  | cons d ds =>
    have hd : ('\x60' == d) = false := by
      rcases eq_or_ne d '\x60' with rfl | hne
      · exact absurd rfl h
      · exact beq_eq_false_iff_ne.mpr (Ne.symm hne)
    simp [isPfx, hd]

theorem fenceA_cons : fenceA = '\x60' :: ('\x60' :: '\x60' :: 'j' :: 's' :: 'o' :: 'n' :: '\n' :: []) := rfl
theorem fenceB_cons : fenceB = '\x60' :: ('\x60' :: '\x60' :: 'j' :: 's' :: 'o' :: 'n' :: []) := rfl
theorem fenceD_cons : fenceD = '\x60' :: ('\x60' :: '\x60' :: []) := rfl

/-- The regex replace leaves a backtick-free text unchanged. -/
theorem stripChars_eq_self : ∀ {l : List Char}, '\x60' ∉ l → stripChars l = l := by
  intro l
  induction l with
  | nil => intro _; rfl
  | cons c cs ih =>
    intro h
    have hc : c ≠ '\x60' := fun hh => h (hh ▸ List.mem_cons_self c cs)
    have hcs : '\x60' ∉ cs := fun hh => h (List.mem_cons_of_mem c hh)
    have hhd : cs.head? ≠ some '\x60' := by
      cases cs with
      | nil => simp
      | cons d ds =>
        simp only [List.head?_cons, ne_eq, Option.some.injEq]
        exact fun hd => hcs (hd ▸ List.mem_cons_self d ds)
    show stripGo (cs.length + 1) (c :: cs) = c :: cs
    rw [stripGo]
    rw [fenceA_cons, isPfx_bt_head_false hc]
    rw [fenceB_cons, isPfx_bt_head_false hc]
    rw [isPfx_fenceC_false hhd]
    rw [fenceD_cons, isPfx_bt_head_false hc]
    simp only [Bool.false_eq_true, if_false]
    exact congrArg (c :: ·) (ih hcs)

/-- Scanning `p ++ "\n```"` for a backtick-free `p` removes exactly the
closing fence. -/
theorem stripGo_append_fenceC :
    ∀ (p : List Char) (f : Nat), '\x60' ∉ p → p.length + 1 ≤ f →
      stripGo f (p ++ fenceC) = p := by
  intro p
  induction p with
  | nil =>
    intro f _ hf
    cases f with
    | zero => omega
    | succ f' => cases f' <;> rfl
  | cons c p' ih =>
    intro f h hf
    have hc : c ≠ '\x60' := fun hh => h (hh ▸ List.mem_cons_self c p')
    have hp' : '\x60' ∉ p' := fun hh => h (List.mem_cons_of_mem c hh)
    have hhd : (p' ++ fenceC).head? ≠ some '\x60' := by
      cases p' with
      | nil => simp [fenceC]
      | cons d ds =>
        simp only [List.cons_append, List.head?_cons, ne_eq, Option.some.injEq]
        exact fun hd => hp' (hd ▸ List.mem_cons_self d ds)
    cases f with
    | zero => simp at hf
    | succ f' =>
      show stripGo (f' + 1) (c :: (p' ++ fenceC)) = c :: p'
      rw [stripGo]
      rw [fenceA_cons, isPfx_bt_head_false hc]
      rw [fenceB_cons, isPfx_bt_head_false hc]
      rw [isPfx_fenceC_false hhd]
      rw [fenceD_cons, isPfx_bt_head_false hc]
      simp only [Bool.false_eq_true, if_false]
      refine congrArg (c :: ·) (ih f' hp' ?_)
      simp only [List.length_cons] at hf
      omega

theorem stripChars_wrap {p : List Char} (h : '\x60' ∉ p) :
    stripChars (fenceA ++ (p ++ fenceC)) = p := by
  show stripGo (fenceA ++ (p ++ fenceC)).length (fenceA ++ (p ++ fenceC)) = p
  have hlen : (fenceA ++ (p ++ fenceC)).length = p.length + 12 := by
    simp only [List.length_append, fenceA, fenceC]
    simp
    omega
  rw [hlen]
  have hstep : stripGo (p.length + 12) (fenceA ++ (p ++ fenceC)) =
      stripGo (p.length + 11) (p ++ fenceC) := by
    show stripGo (p.length + 11 + 1) ('\x60' :: (('\x60' :: '\x60' :: 'j' :: 's' :: 'o' :: 'n' :: '\n' :: []) ++ (p ++ fenceC))) =
      stripGo (p.length + 11) (p ++ fenceC)
    rw [stripGo]
    have hA : isPfx fenceA ('\x60' :: (('\x60' :: '\x60' :: 'j' :: 's' :: 'o' :: 'n' :: '\n' :: []) ++ (p ++ fenceC))) = true := by
      simp [fenceA, isPfx]
    rw [hA]
    simp
  rw [hstep]
  exact stripGo_append_fenceC p _ h (by omega)

theorem dropWhileLenLe (q : Char → Bool) :
    ∀ l : List Char, (l.dropWhile q).length ≤ l.length := by
  intro l
  induction l with
  | nil => simp
  | cons x xs ih =>
    rw [List.dropWhile_cons]
    split
    · exact Nat.le_trans ih (by simp)
    · simp

theorem dropWhile_rdropWhile_eq {q : Char → Bool} {m : List Char}
    (h : m.dropWhile q = m) :
    (List.rdropWhile q m).dropWhile q = List.rdropWhile q m := by
  rcases hrd : List.rdropWhile q m with - | ⟨x, xs⟩
  · rfl
  · have hpfx := List.rdropWhile_prefix q m
    rw [hrd] at hpfx
    obtain ⟨t, ht⟩ := hpfx
    have hqx : q x = false := by
      by_contra hq
      rw [Bool.not_eq_false] at hq
      rw [← ht] at h
      simp only [List.cons_append, List.dropWhile_cons, hq, if_true] at h
      have hle := dropWhileLenLe q (xs ++ t)
      rw [h] at hle
      simp at hle
    simp [List.dropWhile_cons, hqx]

theorem trimChars_idem (l : List Char) : trimChars (trimChars l) = trimChars l := by
  unfold trimChars
  rw [dropWhile_rdropWhile_eq (List.dropWhile_idempotent isWsChar l)]
  exact List.rdropWhile_idempotent isWsChar (l.dropWhile isWsChar)

theorem mk_data (s : String) : String.mk s.data = s := rfl

/-! ## The two response-contract validators

`localLLMParse` is the parse stage of `sendMessageToLocalLLM`
(localLlmService.ts): strip the markdown fences globally, trim, and make a
single `JSON.parse` attempt — its failure is the MalformedResponse condition
caught by the surrounding handler.  `geminiParse` is the parse stage of
`sendMessageToEduMind` (the Gemini service): direct `JSON.parse` first, then
strip-and-retry, then an error.  `specRecoveryParse` is the spec's stated
recovery policy, written from the spec's words for comparison. -/

def localLLMParse (raw : String) : Option Json :=
  jsParse (trimStr (stripFences raw))

def geminiParse (text : String) : Except String Json :=
  match jsParse text with
  | some j => .ok j
  | none =>
    match jsParse (trimStr (stripFences text)) with
    | some j => .ok j
    | none => .error "Failed to parse model response as JSON"

/-- Modelled from the spec: section 4.3 recovery policy — (1) attempt a direct
JSON parse of the raw text; (2) if that fails, strip code-fence markers and
retry the parse; (3) if that still fails, signal `MalformedResponse`. -/
def specRecoveryParse (raw : String) : Except String Json :=
  match jsParse raw with
  | some j => .ok j
  | none =>
    match jsParse (trimStr (stripFences raw)) with
    | some j => .ok j
    | none => .error "MalformedResponse"

/-- Looks up a top-level string member of a parsed JSON object. -/
def getStrMember (key : String) : Option Json → Option String
  | some (.obj ms) =>
    (match ms.lookup key with
     | some (.str v) => some v
     | _ => none)
  | _ => none

theorem jsParse_trimStr (t : String) : jsParse (trimStr t) = jsParse t := by
  unfold jsParse trimStr
  simp only [data_mk, trimChars_idem]

theorem stripFences_eq_self {t : String} (hbt : '\x60' ∉ t.data) :
    stripFences t = t := by
  unfold stripFences
  rw [stripChars_eq_self hbt]

theorem localLLMParse_eq_jsParse {t : String} (hbt : '\x60' ∉ t.data) :
    localLLMParse t = jsParse t := by
  unfold localLLMParse
  rw [stripFences_eq_self hbt]
  exact jsParse_trimStr t

theorem localLLMParse_wrap {t : String} (hbt : '\x60' ∉ t.data) :
    localLLMParse ("```json\n" ++ t ++ "\n```") = jsParse t := by
  unfold localLLMParse
  have hw : stripFences ("```json\n" ++ t ++ "\n```") = t := by
    unfold stripFences
    have hd : ("```json\n" ++ t ++ "\n```").data = fenceA ++ (t.data ++ fenceC) := by
      simp only [String.data_append, List.append_assoc]
      rfl
    rw [hd, stripChars_wrap hbt]
  rw [hw]
  exact jsParse_trimStr t

/-- **C4** (counterexample): the deployed local-LLM validator does not attempt
a direct JSON parse before stripping.  On a valid JSON text whose string value
contains a fence marker, the claimed recovery order (stage 1 succeeds) yields
the intact record, while the validator strips inside the string and yields a
different record. -/
theorem c4_recovery_order_counterexample :
    specRecoveryParse "\x7b\"content_for_user\":\"```json\"\x7d" =
      .ok (Json.obj [("content_for_user", Json.str "```json")]) ∧
    localLLMParse "\x7b\"content_for_user\":\"```json\"\x7d" =
      some (Json.obj [("content_for_user", Json.str "")]) ∧
    localLLMParse "\x7b\"content_for_user\":\"```json\"\x7d" ≠
      (specRecoveryParse "\x7b\"content_for_user\":\"```json\"\x7d").toOption := by
  refine ⟨rfl, rfl, ?_⟩
  intro h
  have h3 : getStrMember "content_for_user" (localLLMParse "\x7b\"content_for_user\":\"```json\"\x7d") =
      getStrMember "content_for_user" ((specRecoveryParse "\x7b\"content_for_user\":\"```json\"\x7d").toOption) :=
    congrArg (getStrMember "content_for_user") h
  have h4 : (some "" : Option String) = some "```json" := h3
  exact absurd (Option.some.inj h4) (by decide)

/-- **C4** (amended): the Gemini-service validator processes raw text in
exactly the claimed order — direct parse, then fence-strip-and-retry, then
`MalformedResponse` — whereas the local-LLM validator used by the app makes a
single parse attempt on the fence-stripped trimmed text; on raw texts without
backticks the two behaviours coincide. -/
theorem c4_recovery_order_amended (raw : String) :
    (geminiParse raw).toOption = (specRecoveryParse raw).toOption ∧
    localLLMParse raw = jsParse (trimStr (stripFences raw)) ∧
    ('\x60' ∉ raw.data → localLLMParse raw = jsParse raw) := by
  refine ⟨?_, rfl, fun hbt => localLLMParse_eq_jsParse hbt⟩
  cases h1 : jsParse raw with
  | some j => simp [geminiParse, specRecoveryParse, h1]
  | none =>
    cases h2 : jsParse (trimStr (stripFences raw)) with
    | some j => simp [geminiParse, specRecoveryParse, h1, h2]
    | none => simp [geminiParse, specRecoveryParse, h1, h2, Except.toOption]

/-- Witness for the amended C4 at a concrete backtick-free raw text. -/
theorem c4_recovery_order_amended_witness :
    (geminiParse "\x7b\"a\":1\x7d").toOption = (specRecoveryParse "\x7b\"a\":1\x7d").toOption ∧
    localLLMParse "\x7b\"a\":1\x7d" = jsParse "\x7b\"a\":1\x7d" :=
  ⟨(c4_recovery_order_amended "\x7b\"a\":1\x7d").1,
   (c4_recovery_order_amended "\x7b\"a\":1\x7d").2.2 (by decide)⟩

/-- **C5** (counterexample): parsing a valid StructuredResponse JSON text does
not always round-trip through the validator — on a record whose
`content_for_user` contains a fence marker, the validator mangles the string
value, so its result differs from the record the text denotes. -/
theorem c5_roundtrip_counterexample :
    jsParse "\x7b\"content_for_user\":\"```json\",\"internal_monologue\":\"m\",\"knowledge_point_id\":\"K1\",\"student_mastery_score\":50,\"suggested_next_state\":\"GUIDING\",\"is_direct_answer_attempt\":false\x7d" =
      some (Json.obj [("content_for_user", Json.str "```json"),
      ("internal_monologue", Json.str "m"), ("knowledge_point_id", Json.str "K1"),
      ("student_mastery_score", Json.num "50"),
      ("suggested_next_state", Json.str "GUIDING"),
      ("is_direct_answer_attempt", Json.bool false)]) ∧
    localLLMParse "\x7b\"content_for_user\":\"```json\",\"internal_monologue\":\"m\",\"knowledge_point_id\":\"K1\",\"student_mastery_score\":50,\"suggested_next_state\":\"GUIDING\",\"is_direct_answer_attempt\":false\x7d" =
      some (Json.obj [("content_for_user", Json.str ""),
      ("internal_monologue", Json.str "m"), ("knowledge_point_id", Json.str "K1"),
      ("student_mastery_score", Json.num "50"),
      ("suggested_next_state", Json.str "GUIDING"),
      ("is_direct_answer_attempt", Json.bool false)]) ∧
    localLLMParse "\x7b\"content_for_user\":\"```json\",\"internal_monologue\":\"m\",\"knowledge_point_id\":\"K1\",\"student_mastery_score\":50,\"suggested_next_state\":\"GUIDING\",\"is_direct_answer_attempt\":false\x7d" ≠
      jsParse "\x7b\"content_for_user\":\"```json\",\"internal_monologue\":\"m\",\"knowledge_point_id\":\"K1\",\"student_mastery_score\":50,\"suggested_next_state\":\"GUIDING\",\"is_direct_answer_attempt\":false\x7d" := by
  refine ⟨rfl, rfl, ?_⟩
  intro h
  have h3 : getStrMember "content_for_user" (localLLMParse "\x7b\"content_for_user\":\"```json\",\"internal_monologue\":\"m\",\"knowledge_point_id\":\"K1\",\"student_mastery_score\":50,\"suggested_next_state\":\"GUIDING\",\"is_direct_answer_attempt\":false\x7d") =
      getStrMember "content_for_user" (jsParse "\x7b\"content_for_user\":\"```json\",\"internal_monologue\":\"m\",\"knowledge_point_id\":\"K1\",\"student_mastery_score\":50,\"suggested_next_state\":\"GUIDING\",\"is_direct_answer_attempt\":false\x7d") :=
    congrArg (getStrMember "content_for_user") h
  have h4 : (some "" : Option String) = some "```json" := h3
  exact absurd (Option.some.inj h4) (by decide)

/-- **C5** (amended): for every raw text containing no backtick, the
validator returns exactly the record a direct JSON parse of the text denotes,
and parsing a payload wrapped in triple-backtick fences (with json tag and
newlines) yields exactly the same result as parsing the unwrapped payload. -/
theorem c5_roundtrip_amended (t : String) (hbt : '\x60' ∉ t.data) :
    (∀ j : Json, jsParse t = some j → localLLMParse t = some j) ∧
    localLLMParse ("```json\n" ++ t ++ "\n```") = localLLMParse t := by
  refine ⟨fun j hj => ?_, ?_⟩
  · rw [localLLMParse_eq_jsParse hbt]
    exact hj
  · rw [localLLMParse_wrap hbt, localLLMParse_eq_jsParse hbt]

/-- Witness for the amended C5 at a concrete backtick-free payload. -/
theorem c5_roundtrip_amended_witness :
    localLLMParse "\x7b\"a\":1\x7d" = some (Json.obj [("a", Json.num "1")]) ∧
    localLLMParse ("```json\n" ++ "\x7b\"a\":1\x7d" ++ "\n```") = localLLMParse "\x7b\"a\":1\x7d" :=
  ⟨(c5_roundtrip_amended "\x7b\"a\":1\x7d" (by decide)).1
      (Json.obj [("a", Json.num "1")]) rfl,
   (c5_roundtrip_amended "\x7b\"a\":1\x7d" (by decide)).2⟩

/-! ## Inference Gateway (src localLlmService.ts, `sendMessageToLocalLLM`)

The single `fetch` is modelled by its observable outcome.  `errText` carries
the JavaScript stringification of the caught value as interpolated by
`${error}` (e.g. "TypeError: Failed to fetch" for a rejected fetch). -/

inductive FetchOutcome where
  | netError (errText : String)
  | httpError (status : Nat) (statusText : String)
  | noContent
  | content (raw : String)

/-- The fallback `StructuredAIResponse` returned by the catch-all handler of
`sendMessageToLocalLLM`, with `err` the stringified caught error. -/
def localFallback (endpoint err : String) : StructuredAIResponse :=
  { content_for_user := "⚠️ Connection Error: I cannot reach your local model. Please check if vLLM/Ollama is running on port 8000."
    internal_monologue := "Connection failed to " ++ endpoint ++ ". Error: " ++ err
    knowledge_point_id := "ERR_CONN"
    student_mastery_score := 0
    suggested_next_state := .GUIDING
    is_direct_answer_attempt := false }

/-- The gateway either returns the parsed JSON (cast, unvalidated, to
`StructuredAIResponse` by the TypeScript code) or the fallback record. -/
inductive GatewayResult where
  | parsed (j : Json)
  | fallback (r : StructuredAIResponse)

/-- Result of `sendMessageToLocalLLM` as a function of the fetch outcome:
a non-ok response throws `Local API Error: {status} {statusText}`, a missing
completion throws `Empty response from local model`, an unparseable completion
throws `Failed to parse structured output from Local LLM`, and every thrown
error is converted by the surrounding catch into the fallback record. -/
def sendMessageToLocalLLMResult (endpoint : String) (outcome : FetchOutcome) :
    GatewayResult :=
  match outcome with
  | .netError e => .fallback (localFallback endpoint e)
  | .httpError st stx =>
    .fallback (localFallback endpoint ("Error: Local API Error: " ++ decStr st ++ " " ++ stx))
  | .noContent => .fallback (localFallback endpoint "Error: Empty response from local model")
  | .content raw =>
    -- the truthiness test `if (!rawContent)` also fires on an empty string
    if raw = "" then
      .fallback (localFallback endpoint "Error: Empty response from local model")
    else
      match localLLMParse raw with
      | some j => .parsed j
      | none =>
        .fallback (localFallback endpoint "Error: Failed to parse structured output from Local LLM")

theorem localFallback_monologue_ne (endpoint err : String) :
    (localFallback endpoint err).internal_monologue ≠ "" := by
  intro h
  have hd := congrArg String.data h
  rw [show (localFallback endpoint err).internal_monologue
      = "Connection failed to " ++ endpoint ++ ". Error: " ++ err from rfl] at hd
  rw [show ("" : String).data = [] from rfl] at hd
  simp only [String.data_append] at hd
  simp at hd

theorem localFallback_monologue_endpoint (endpoint err : String) :
    InfixOf endpoint.data (localFallback endpoint err).internal_monologue.data := by
  refine ⟨("Connection failed to " : String).data, (". Error: " ++ err).data, ?_⟩
  show ("Connection failed to " ++ endpoint ++ ". Error: " ++ err).data = _
  simp [String.data_append, List.append_assoc]

/-! ## Message assembly (`sendMessageToLocalLLM` lines 18-26) -/

/-- An outbound OpenAI-format message. -/
structure ApiMessage where
  role : String
  content : String
deriving DecidableEq

/-- JSON string escaping (model of what `JSON.stringify` does to a string). -/
def jsonEscapeChar (c : Char) : List Char :=
  if c = '\x22' then ['\\', '\x22']
  else if c = '\\' then ['\\', '\\']
  else if c = '\n' then ['\\', 'n']
  else if c = '\r' then ['\\', 'r']
  else if c = '\t' then ['\\', 't']
  else if c = '\x08' then ['\\', 'b']
  else if c = '\x0c' then ['\\', 'f']
  else if c.toNat < 32 then
    ['\\', 'u', '0', '0', Nat.digitChar (c.toNat / 16), Nat.digitChar (c.toNat % 16)]
  else [c]

def jsonEscape (s : String) : String := String.mk (s.data.flatMap jsonEscapeChar)

def quoteJson (s : String) : String := "\"" ++ jsonEscape s ++ "\""

def intDecStr : Int → String
  | .ofNat n => decStr n
  | .negSucc n => "-" ++ decStr (n + 1)

def boolStr : Bool → String
  | true => "true"
  | false => "false"

/-- `JSON.stringify` of a `StructuredAIResponse` record, fields in interface
order (the insertion order of the object the code manipulates). -/
def stringifyStructured (r : StructuredAIResponse) : String :=
  "\x7b\"content_for_user\":" ++ quoteJson r.content_for_user
    ++ ",\"internal_monologue\":" ++ quoteJson r.internal_monologue
    ++ ",\"knowledge_point_id\":" ++ quoteJson r.knowledge_point_id
    ++ ",\"student_mastery_score\":" ++ intDecStr r.student_mastery_score
    ++ ",\"suggested_next_state\":" ++ quoteJson (pedStateStr r.suggested_next_state)
    ++ ",\"is_direct_answer_attempt\":" ++ boolStr r.is_direct_answer_attempt
    ++ "\x7d"

/-- The per-turn mapping of `history.map(...)`: assistant turns keep the
assistant role, everything else (user and system turns alike) is sent as
user; an assistant turn carrying metadata is re-serialized as the full
structured JSON instead of its displayed text. -/
def mapTurn (h : ChatMessage) : ApiMessage :=
  { role := if h.role = .assistant then "assistant" else "user"
    content :=
      match h.role, h.metadata with
      | .assistant, some m => stringifyStructured m
      | _, _ => h.content }

/-- The `apiMessages` array of `sendMessageToLocalLLM`: system entry first,
then the mapped history, then the new user message. -/
def buildApiMessages (systemPrompt : String) (history : List ChatMessage)
    (userMessage : String) : List ApiMessage :=
  { role := "system", content := systemPrompt }
    :: (history.map mapTurn ++ [{ role := "user", content := userMessage }])

/-! ## Dialogue Controller (`handleSend` in App.tsx) -/

/-- The fixed refusal-and-redirect message of the guardrail (App.tsx line 396). -/
def guardrailMessage : String :=
  "I noticed you asked for the answer directly. Let's try to solve it step-by-step first. What is your first thought?"

/-- Initial pedagogical state (`useState<PedagogicalState>(PedagogicalState.GUIDING)`,
App.tsx line 298). -/
def initialPedagogicalState : PedagogicalState := .GUIDING

/-- The observable effects of one completed `handleSend` turn. -/
structure TurnEffects where
  newState : PedagogicalState
  displayContent : String
  botMsg : ChatMessage
  mistakeWrites : List MistakeRecord
  savedMessages : List ChatMessage

/-- The post-gateway logic of `handleSend` (App.tsx lines 345-411), as a pure
function of the response the gateway returned.  React semantics note: the
`currentState` binding is the render-time value throughout the closure; the
`setCurrentState` call schedules the next render's state and does not change
`currentState` before the guardrail check, so that check reads the state at
the time the request was made.  `now` stands for the `Date.now()` value; the
JavaScript truthiness tests on `suggested_next_state` (an enum-typed,
non-empty string) reduce to the inequality test, and on the two string fields
to non-emptiness. -/
def handleSendTurn (subject : Subject) (student : StudentProfile) (mode : TaskMode)
    (currentState : PedagogicalState) (messages : List ChatMessage)
    (inputText : String) (response : StructuredAIResponse) (now : Nat) :
    TurnEffects :=
  let userMsg : ChatMessage :=
    { id := decStr now, role := .user, content := inputText,
      metadata := none, timestamp := now }
  let updatedMessages := messages ++ [userMsg]
  let newState :=
    if response.suggested_next_state ≠ currentState then response.suggested_next_state
    else currentState
  let mistakeWrites :=
    if mode = .MISTAKE_ANALYSIS ∧ response.knowledge_point_id ≠ ""
        ∧ response.internal_monologue ≠ "" then
      [{ userEmail := student.email, subject := subject,
         question := String.mk (inputText.data.take 100),
         analysis := response.internal_monologue,
         knowledgePoint := response.knowledge_point_id, timestamp := now }]
    else []
  let displayContent :=
    if response.is_direct_answer_attempt ∧ currentState = .GUIDING then guardrailMessage
    else response.content_for_user
  let botMsg : ChatMessage :=
    { id := decStr (now + 1), role := .assistant, content := displayContent,
      metadata := some response, timestamp := now }
  { newState := newState, displayContent := displayContent, botMsg := botMsg,
    mistakeWrites := mistakeWrites, savedMessages := updatedMessages ++ [botMsg] }

/-! ## Claim theorems about the controller and gateway -/

/-- **C1**: in a turn whose response has `is_direct_answer_attempt = true` and
whose request-time state is GUIDING, the displayed assistant text equals the
fixed refusal-and-redirect message regardless of `content_for_user`, while
the full StructuredResponse (including the original `content_for_user`) is
still attached to the appended assistant turn as metadata; if the
request-time state is EXPLAINING or QUIZZING, the displayed text equals
`content_for_user` unchanged. -/
theorem c1_guardrail_display (subject : Subject) (student : StudentProfile)
    (mode : TaskMode) (currentState : PedagogicalState)
    (messages : List ChatMessage) (inputText : String)
    (response : StructuredAIResponse) (now : Nat) :
    (response.is_direct_answer_attempt = true → currentState = .GUIDING →
      (handleSendTurn subject student mode currentState messages inputText response now).displayContent
          = guardrailMessage ∧
      (handleSendTurn subject student mode currentState messages inputText response now).botMsg.content
          = guardrailMessage ∧
      (handleSendTurn subject student mode currentState messages inputText response now).botMsg.metadata
          = some response) ∧
    (currentState = .EXPLAINING ∨ currentState = .QUIZZING →
      (handleSendTurn subject student mode currentState messages inputText response now).displayContent
          = response.content_for_user ∧
      (handleSendTurn subject student mode currentState messages inputText response now).botMsg.metadata
          = some response) := by
  constructor
  · intro hda hg
    subst hg
    refine ⟨?_, ?_, rfl⟩ <;> simp [handleSendTurn, hda]
  · rintro (rfl | rfl) <;> exact ⟨by simp [handleSendTurn], rfl⟩

/-- Witness for C1: concrete guardrail firing and non-firing turns. -/
theorem c1_guardrail_display_witness :
    (handleSendTurn .MATH ⟨"S", 11, .PRIMARY, .Intermediate, "g@e"⟩ .HOMEWORK_HELP
        .GUIDING [] "answer?" ⟨"42", "im", "KP", 10, .GUIDING, true⟩ 3).displayContent
      = guardrailMessage ∧
    (handleSendTurn .MATH ⟨"S", 11, .PRIMARY, .Intermediate, "g@e"⟩ .HOMEWORK_HELP
        .EXPLAINING [] "answer?" ⟨"42", "im", "KP", 10, .GUIDING, true⟩ 3).displayContent
      = "42" :=
  ⟨((c1_guardrail_display .MATH ⟨"S", 11, .PRIMARY, .Intermediate, "g@e"⟩ .HOMEWORK_HELP
      .GUIDING [] "answer?" ⟨"42", "im", "KP", 10, .GUIDING, true⟩ 3).1 rfl rfl).1,
   ((c1_guardrail_display .MATH ⟨"S", 11, .PRIMARY, .Intermediate, "g@e"⟩ .HOMEWORK_HELP
      .EXPLAINING [] "answer?" ⟨"42", "im", "KP", 10, .GUIDING, true⟩ 3).2 (Or.inl rfl)).1⟩

/-- **C2**: the controller starts in GUIDING, and on any response whose
(always-present, enum-typed) `suggested_next_state` differs from the current
state it adopts that state unconditionally — no validation of the transition;
in particular GUIDING plus a response suggesting EXPLAINING leaves the
controller in EXPLAINING. -/
theorem c2_state_transition :
    initialPedagogicalState = .GUIDING ∧
    ∀ (subject : Subject) (student : StudentProfile) (mode : TaskMode)
      (currentState : PedagogicalState) (messages : List ChatMessage)
      (inputText : String) (response : StructuredAIResponse) (now : Nat),
      response.suggested_next_state ≠ currentState →
      (handleSendTurn subject student mode currentState messages inputText response now).newState
        = response.suggested_next_state := by
  refine ⟨rfl, ?_⟩
  intro subject student mode currentState messages inputText response now hne
  simp [handleSendTurn, hne]

/-- Witness for C2: GUIDING plus suggested EXPLAINING ends in EXPLAINING. -/
theorem c2_state_transition_witness :
    initialPedagogicalState = .GUIDING ∧
    (handleSendTurn .MATH ⟨"S", 11, .PRIMARY, .Intermediate, "g@e"⟩ .HOMEWORK_HELP
        .GUIDING [] "why?" ⟨"c", "m", "k", 10, .EXPLAINING, false⟩ 5).newState
      = .EXPLAINING :=
  ⟨c2_state_transition.1,
   c2_state_transition.2 .MATH ⟨"S", 11, .PRIMARY, .Intermediate, "g@e"⟩ .HOMEWORK_HELP
     .GUIDING [] "why?" ⟨"c", "m", "k", 10, .EXPLAINING, false⟩ 5 (by decide)⟩

theorem localFallback_content_ne (endpoint err : String) :
    (localFallback endpoint err).content_for_user ≠ "" := by
  show ("⚠️ Connection Error: I cannot reach your local model. Please check if vLLM/Ollama is running on port 8000." : String) ≠ ""
  decide

theorem localFallback_kp_ne (endpoint err : String) :
    (localFallback endpoint err).knowledge_point_id ≠ "" := by
  show ("ERR_CONN" : String) ≠ ""
  decide

/-- **C3**: whenever the fetch fails, returns a non-success status, yields no
completion, or yields an unparseable completion, the gateway propagates no
exception: it returns the fallback StructuredResponse with
`knowledge_point_id = "ERR_CONN"`, `student_mastery_score = 0`,
`suggested_next_state = GUIDING`, `is_direct_answer_attempt = false`, a
non-empty `content_for_user`, and an `internal_monologue` carrying the raw
diagnostic naming the endpoint. -/
theorem c3_gateway_fallback (endpoint : String) (outcome : FetchOutcome)
    (hfail : match outcome with
      | .content raw => localLLMParse raw = none
      | _ => True) :
    ∃ fb : StructuredAIResponse,
      sendMessageToLocalLLMResult endpoint outcome = .fallback fb ∧
      fb.knowledge_point_id = "ERR_CONN" ∧
      fb.student_mastery_score = 0 ∧
      fb.suggested_next_state = .GUIDING ∧
      fb.is_direct_answer_attempt = false ∧
      fb.content_for_user ≠ "" ∧
      InfixOf endpoint.data fb.internal_monologue.data := by
  cases outcome with
  | netError e =>
    exact ⟨_, rfl, rfl, rfl, rfl, rfl, localFallback_content_ne endpoint _,
      localFallback_monologue_endpoint endpoint _⟩
  | httpError st stx =>
    exact ⟨_, rfl, rfl, rfl, rfl, rfl, localFallback_content_ne endpoint _,
      localFallback_monologue_endpoint endpoint _⟩
  | noContent =>
    exact ⟨_, rfl, rfl, rfl, rfl, rfl, localFallback_content_ne endpoint _,
      localFallback_monologue_endpoint endpoint _⟩
  | content raw =>
    by_cases hraw : raw = ""
    · have hstep : sendMessageToLocalLLMResult endpoint (.content raw)
          = .fallback (localFallback endpoint "Error: Empty response from local model") := by
        simp only [sendMessageToLocalLLMResult, if_pos hraw]
      exact ⟨_, hstep, rfl, rfl, rfl, rfl, localFallback_content_ne endpoint _,
        localFallback_monologue_endpoint endpoint _⟩
    · have hstep : sendMessageToLocalLLMResult endpoint (.content raw)
          = .fallback (localFallback endpoint
              "Error: Failed to parse structured output from Local LLM") := by
        simp only [sendMessageToLocalLLMResult, if_neg hraw, hfail]
      exact ⟨_, hstep, rfl, rfl, rfl, rfl, localFallback_content_ne endpoint _,
        localFallback_monologue_endpoint endpoint _⟩

/-- Witness for C3: an unreachable endpoint (rejected fetch). -/
theorem c3_gateway_fallback_witness :
    ∃ fb : StructuredAIResponse,
      sendMessageToLocalLLMResult "http://localhost:8000/v1/chat/completions"
          (.netError "TypeError: Failed to fetch") = .fallback fb ∧
      fb.knowledge_point_id = "ERR_CONN" ∧
      fb.student_mastery_score = 0 ∧
      fb.suggested_next_state = .GUIDING ∧
      fb.is_direct_answer_attempt = false ∧
      fb.content_for_user ≠ "" ∧
      InfixOf ("http://localhost:8000/v1/chat/completions" : String).data
        fb.internal_monologue.data :=
  c3_gateway_fallback "http://localhost:8000/v1/chat/completions"
    (.netError "TypeError: Failed to fetch") trivial

/-- **C9**: `addMistake` is called exactly once — with the learner identity,
subject, question excerpt, the internal monologue as analysis and the
knowledge-point id — if and only if the task mode is MISTAKE_ANALYSIS and the
response carries a non-empty `knowledge_point_id` and a non-empty
`internal_monologue`; in any other case (in particular HOMEWORK_HELP mode)
no call is made. -/
theorem c9_mistake_trigger (subject : Subject) (student : StudentProfile)
    (mode : TaskMode) (currentState : PedagogicalState)
    (messages : List ChatMessage) (inputText : String)
    (response : StructuredAIResponse) (now : Nat) :
    (mode = .MISTAKE_ANALYSIS → response.knowledge_point_id ≠ "" →
      response.internal_monologue ≠ "" →
      (handleSendTurn subject student mode currentState messages inputText response now).mistakeWrites =
        [{ userEmail := student.email, subject := subject,
           question := String.mk (inputText.data.take 100),
           analysis := response.internal_monologue,
           knowledgePoint := response.knowledge_point_id, timestamp := now }]) ∧
    (mode ≠ .MISTAKE_ANALYSIS ∨ response.knowledge_point_id = ""
        ∨ response.internal_monologue = "" →
      (handleSendTurn subject student mode currentState messages inputText response now).mistakeWrites
        = []) := by
  constructor
  · intro hm hk hi
    simp [handleSendTurn, hm, hk, hi]
  · intro hOr
    have hneg : ¬(mode = .MISTAKE_ANALYSIS ∧ response.knowledge_point_id ≠ ""
        ∧ response.internal_monologue ≠ "") := by
      rintro ⟨h1, h2, h3⟩
      rcases hOr with h | h | h
      · exact h h1
      · exact h2 h
      · exact h3 h
    simp [handleSendTurn, hneg]

/-- Witness for C9: one firing turn and one HOMEWORK_HELP turn. -/
theorem c9_mistake_trigger_witness :
    (handleSendTurn .MATH ⟨"S", 11, .PRIMARY, .Intermediate, "g@e"⟩ .MISTAKE_ANALYSIS
        .GUIDING [] "2+3=6?" ⟨"c", "mono", "KP_1", 10, .GUIDING, false⟩ 7).mistakeWrites =
      [{ userEmail := "g@e", subject := .MATH,
         question := String.mk (("2+3=6?" : String).data.take 100),
         analysis := "mono", knowledgePoint := "KP_1", timestamp := 7 }] ∧
    (handleSendTurn .MATH ⟨"S", 11, .PRIMARY, .Intermediate, "g@e"⟩ .HOMEWORK_HELP
        .GUIDING [] "2+3=6?" ⟨"c", "mono", "KP_1", 10, .GUIDING, false⟩ 7).mistakeWrites = [] :=
  ⟨(c9_mistake_trigger .MATH ⟨"S", 11, .PRIMARY, .Intermediate, "g@e"⟩ .MISTAKE_ANALYSIS
      .GUIDING [] "2+3=6?" ⟨"c", "mono", "KP_1", 10, .GUIDING, false⟩ 7).1
      rfl (by decide) (by decide),
   (c9_mistake_trigger .MATH ⟨"S", 11, .PRIMARY, .Intermediate, "g@e"⟩ .HOMEWORK_HELP
      .GUIDING [] "2+3=6?" ⟨"c", "mono", "KP_1", 10, .GUIDING, false⟩ 7).2
      (Or.inl (by decide))⟩

/-- **C10**: when the inference call fails in MISTAKE_ANALYSIS mode, the turn
still writes a mistake record: the fallback response carries the non-empty
sentinel `knowledge_point_id = "ERR_CONN"` and a non-empty
`internal_monologue` (the connection diagnostic naming the endpoint), so the
mistake-archive trigger fires and persists a record whose analysis is the
error text. -/
theorem c10_failure_writes_error_mistake (endpoint : String) (outcome : FetchOutcome)
    (hfail : match outcome with
      | .content raw => localLLMParse raw = none
      | _ => True)
    (subject : Subject) (student : StudentProfile) (currentState : PedagogicalState)
    (messages : List ChatMessage) (inputText : String) (now : Nat) :
    ∀ fb : StructuredAIResponse,
      sendMessageToLocalLLMResult endpoint outcome = .fallback fb →
      (handleSendTurn subject student .MISTAKE_ANALYSIS currentState messages inputText fb now).mistakeWrites =
        [{ userEmail := student.email, subject := subject,
           question := String.mk (inputText.data.take 100),
           analysis := fb.internal_monologue,
           knowledgePoint := "ERR_CONN", timestamp := now }] ∧
      fb.knowledge_point_id = "ERR_CONN" ∧
      fb.internal_monologue ≠ "" ∧
      InfixOf endpoint.data fb.internal_monologue.data := by
  intro fb hfb
  have hfb' : ∃ err, fb = localFallback endpoint err := by
    cases outcome with
    | netError e =>
      simp only [sendMessageToLocalLLMResult] at hfb
      exact ⟨e, by injection hfb with h; exact h.symm⟩
    | httpError st stx =>
      simp only [sendMessageToLocalLLMResult] at hfb
      exact ⟨_, by injection hfb with h; exact h.symm⟩
    | noContent =>
      simp only [sendMessageToLocalLLMResult] at hfb
      exact ⟨_, by injection hfb with h; exact h.symm⟩
    | content raw =>
      by_cases hraw : raw = ""
      · simp only [sendMessageToLocalLLMResult, if_pos hraw] at hfb
        exact ⟨_, by injection hfb with h; exact h.symm⟩
      · simp only [sendMessageToLocalLLMResult, if_neg hraw, hfail] at hfb
        exact ⟨_, by injection hfb with h; exact h.symm⟩
  obtain ⟨err, rfl⟩ := hfb'
  have h0 : (localFallback endpoint err).knowledge_point_id = "ERR_CONN" := rfl
  have h1 := localFallback_kp_ne endpoint err
  have h2 := localFallback_monologue_ne endpoint err
  refine ⟨?_, rfl, h2, localFallback_monologue_endpoint endpoint err⟩
  simp [handleSendTurn, h0, h1, h2]

/-- Witness for C10: rejected fetch during a MISTAKE_ANALYSIS turn. -/
theorem c10_failure_writes_error_mistake_witness :
    (handleSendTurn .MATH ⟨"S", 11, .PRIMARY, .Intermediate, "g@e"⟩ .MISTAKE_ANALYSIS
        .GUIDING [] "2+2?"
        (localFallback "http://localhost:8000/v1/chat/completions" "TypeError: Failed to fetch")
        9).mistakeWrites =
      [{ userEmail := "g@e", subject := .MATH,
         question := String.mk (("2+2?" : String).data.take 100),
         analysis := (localFallback "http://localhost:8000/v1/chat/completions"
            "TypeError: Failed to fetch").internal_monologue,
         knowledgePoint := "ERR_CONN", timestamp := 9 }] ∧
    (localFallback "http://localhost:8000/v1/chat/completions"
        "TypeError: Failed to fetch").knowledge_point_id = "ERR_CONN" ∧
    (localFallback "http://localhost:8000/v1/chat/completions"
        "TypeError: Failed to fetch").internal_monologue ≠ "" ∧
    InfixOf ("http://localhost:8000/v1/chat/completions" : String).data
      (localFallback "http://localhost:8000/v1/chat/completions"
        "TypeError: Failed to fetch").internal_monologue.data :=
  c10_failure_writes_error_mistake "http://localhost:8000/v1/chat/completions"
    (.netError "TypeError: Failed to fetch") trivial .MATH
    ⟨"S", 11, .PRIMARY, .Intermediate, "g@e"⟩ .GUIDING [] "2+2?" 9
    (localFallback "http://localhost:8000/v1/chat/completions" "TypeError: Failed to fetch")
    rfl

/-- **C8**: the outbound message sequence is exactly one system-role entry
carrying the instruction text first, then every prior conversation turn in
order — an assistant turn carrying a StructuredResponse being serialized as
the full structured JSON rather than its displayed text — and the new user
message appended last; no other entry has the system role. -/
theorem c8_message_assembly (systemPrompt : String) (history : List ChatMessage)
    (userMessage : String) :
    (buildApiMessages systemPrompt history userMessage).head? =
      some { role := "system", content := systemPrompt } ∧
    (buildApiMessages systemPrompt history userMessage).length = history.length + 2 ∧
    (∀ i (hi : i < history.length),
      (buildApiMessages systemPrompt history userMessage)[i + 1]? =
        some (mapTurn history[i])) ∧
    (buildApiMessages systemPrompt history userMessage).getLast? =
      some { role := "user", content := userMessage } ∧
    (∀ h : ChatMessage, h.role = .assistant → ∀ m, h.metadata = some m →
      (mapTurn h).content = stringifyStructured m) ∧
    ((buildApiMessages systemPrompt history userMessage).filter
        (fun m => m.role == "system")).length = 1 := by
  refine ⟨rfl, by simp [buildApiMessages], ?_, ?_, ?_, ?_⟩
  · intro i hi
    simp only [buildApiMessages, List.getElem?_cons_succ]
    rw [List.getElem?_append, if_pos (by simpa using hi)]
    simp [hi]
  · simp only [buildApiMessages]
    rw [← List.cons_append, List.getLast?_append_cons]
    rfl
  · intro h hr m hm
    obtain ⟨hid, hrole, hcontent, hmd, hts⟩ := h
    simp only at hr hm
    subst hr hm
    rfl
  · simp only [buildApiMessages]
    rw [List.filter_cons_of_pos (by rfl)]
    rw [List.filter_append]
    have h1 : List.filter (fun m => m.role == "system") (history.map mapTurn) = [] := by
      rw [List.filter_eq_nil_iff]
      intro x hx
      obtain ⟨h0, -, rfl⟩ := List.mem_map.mp hx
      show ¬((if h0.role = .assistant then "assistant" else "user") == "system") = true
      split <;> decide
    have h2 : List.filter (fun m => m.role == "system")
        [({ role := "user", content := userMessage } : ApiMessage)] = [] := rfl
    rw [h1, h2]
    rfl

/-- Concrete assistant turn and attached record used by the C8 witness. -/
def wResp : StructuredAIResponse :=
  { content_for_user := "hi", internal_monologue := "think",
    knowledge_point_id := "KP", student_mastery_score := 50,
    suggested_next_state := .GUIDING, is_direct_answer_attempt := false }

def wMsg : ChatMessage :=
  { id := "1", role := .assistant, content := "shown",
    metadata := some wResp, timestamp := 0 }

/-- Witness for C8 at a one-turn history whose assistant turn carries
metadata. -/
theorem c8_message_assembly_witness :
    (buildApiMessages "sys" [wMsg] "u")[0 + 1]? = some (mapTurn wMsg) ∧
    (mapTurn wMsg).content = stringifyStructured wResp ∧
    (buildApiMessages "sys" [wMsg] "u").getLast? =
      some { role := "user", content := "u" } :=
  ⟨(c8_message_assembly "sys" [wMsg] "u").2.2.1 0 (by decide),
   (c8_message_assembly "sys" [wMsg] "u").2.2.2.2.1 wMsg rfl wResp rfl,
   (c8_message_assembly "sys" [wMsg] "u").2.2.2.1⟩

end EduMind